import Mathlib

/-!
Shallow embedding of `reproduce_12858.py`, a diagnostic harness that
reproduces OpenHands issue #12858 (user skills fail to load inside a
container because `Path.home()` does not match the volume mount point).

The file system is modelled as a record of created directories and an
association list of (path, content) files; a path is a list of components.
The external SDK loader and service aggregator are not part of this
repository, so they are modelled from the spec (see the doc comments
starting with `Modelled from the spec:`).
-/

/-- A file-system path, as a list of components (`/a/b/c` is `["a","b","c"]`). -/
abbrev FilePath' := List String

/-- The file system: the set of directories that exist, and the files as an
association list from path to text content.  `setFile` overwrites. -/
structure FS where
  dirs : List FilePath'
  files : List (FilePath' × String)
deriving DecidableEq

/-- Test `underDir d p` : `p` is `d` itself or lies below directory `d`. -/
def underDir (d p : FilePath') : Bool :=
  p.take d.length == d

/-- The ancestors of a path, each proper prefix and the path itself. -/
def ancestors (p : FilePath') : List FilePath' :=
  (List.range (p.length + 1)).map (fun i => p.take i)

/-- Append a directory to the set if it is not already present. -/
def insertDir (ds : List FilePath') (d : FilePath') : List FilePath' :=
  if d ∈ ds then ds else ds ++ [d]

/-- Model of `Path.mkdir(parents=True, exist_ok=True)`: create a directory and all of
its ancestors, skipping the ones that already exist. -/
def mkdirP (fs : FS) (p : FilePath') : FS :=
  { fs with dirs := (ancestors p).foldl insertDir fs.dirs }

/-- Model of `Path.mkdir()` with no flags: create the single directory. -/
def mkdir1 (fs : FS) (p : FilePath') : FS :=
  { fs with dirs := insertDir fs.dirs p }

/-- Model of `path.write_text(content)`: overwrite the file at `p` with `c`. -/
def setFile (fs : FS) (p : FilePath') (c : String) : FS :=
  { fs with files := fs.files.filter (fun e => e.1 ≠ p) ++ [(p, c)] }

/-- Read the file at `p`, if present. -/
def getFile (fs : FS) (p : FilePath') : Option String :=
  (fs.files.find? (fun e => e.1 == p)).map (fun e => e.2)

/-- Model of the `shutil`-style removal of the whole tree rooted at `p`, as performed by
`tempfile.TemporaryDirectory` on exit. -/
def removeTree (fs : FS) (p : FilePath') : FS :=
  { dirs := fs.dirs.filter (fun d => ¬ underDir p d),
    files := fs.files.filter (fun e => ¬ underDir p e.1) }

/-- A loaded skill record, as exposed by the external SDK: a name, trigger
strings, and a source label. -/
structure Skill where
  name : String
  triggers : List String
  source : String
deriving DecidableEq

/-- Model of `s.get_triggers()` on a skill record. -/
def Skill.get_triggers (s : Skill) : List String :=
  s.triggers

/-- Content of `deepsolve.md`, written by `create_test_skills`. -/
def deepsolveContent : String :=
  "---\nname: deepsolve\ntriggers:\n  - deep-solve\n  - analysis\n---\n\n# Deep Solve Skill\n\nA test user skill for deep analysis.\n"

/-- Content of `eda.md`, written by `create_test_skills`. -/
def edaContent : String :=
  "---\nname: eda\ntriggers:\n  - eda\n  - explore-data\n---\n\n# EDA Skill\n\nA test user skill for exploratory data analysis.\n"

/-- Content of `checkpoint.md`, written by `create_test_skills`; its header
has no `triggers` field. -/
def checkpointContent : String :=
  "---\nname: checkpoint\n---\n\n# Checkpoint Skill\n\nA test user skill for checkpointing.\n"

/-- Model of `create_test_skills(skills_dir)`: make the directory (and parents), write
the three fixture files, return the list of paths written. -/
def create_test_skills (fs : FS) (skills_dir : FilePath') : FS × List FilePath' :=
  let fs := mkdirP fs skills_dir
  let skill1 := skills_dir ++ ["deepsolve.md"]
  let fs := setFile fs skill1 deepsolveContent
  let skill2 := skills_dir ++ ["eda.md"]
  let fs := setFile fs skill2 edaContent
  let skill3 := skills_dir ++ ["checkpoint.md"]
  let fs := setFile fs skill3 checkpointContent
  (fs, [skill1, skill2, skill3])

/-- Split a character list into lines at newline characters. -/
def splitLinesAux : List Char → List Char → List (List Char)
  | [], acc => [acc.reverse]
  | c :: cs, acc =>
    if c == '\x0a' then acc.reverse :: splitLinesAux cs []
    else splitLinesAux cs (c :: acc)

/-- Split a string into its lines. -/
def splitLines (s : String) : List (List Char) :=
  splitLinesAux s.data []

/-- Take the lines up to (excluding) the closing `---` marker; `none` when
the marker never occurs. -/
def takeUntilMarker : List (List Char) → Option (List (List Char))
  | [] => none
  | l :: ls =>
    if l == "---".data then some []
    else (takeUntilMarker ls).map (fun r => l :: r)

/-- Scan the header lines for the `name:` key and the optional `triggers:`
list (entries are lines of the form `  - x`).  The Boolean tracks whether we
are inside the `triggers:` block. -/
def parseMeta : List (List Char) → String → List String → Bool → String × List String
  | [], n, ts, _ => (n, ts)
  | l :: ls, n, ts, inT =>
    if "name: ".data.isPrefixOf l then
      parseMeta ls ⟨l.drop 6⟩ ts false
    else if l == "triggers:".data then
      parseMeta ls n ts true
    else if inT && "  - ".data.isPrefixOf l then
      parseMeta ls n (ts ++ [⟨l.drop 4⟩]) true
    else
      parseMeta ls n ts false

/-- Modelled from the spec: the fixture-file format the external loader
parses — "plain text files with a metadata header delimited by a fixed
marker line, containing a `name` key and an optional `triggers` list (one or
more short strings), followed by a blank line and free-form narrative text".
Returns `none` when the header is missing or has no name. -/
def parseSkill (content : String) : Option Skill :=
  match splitLines content with
  | [] => none
  | first :: rest =>
    if first == "---".data then
      match takeUntilMarker rest with
      | none => none
      | some front =>
        let (n, ts) := parseMeta front "" [] false
        if n == "" then none else some ⟨n, ts, "user"⟩
    else none

/-- Whether file entry `e` is a `*.md` file directly inside directory `d`. -/
def isMdChild (d : FilePath') (e : FilePath' × String) : Bool :=
  e.1.length == d.length + 1 && e.1.take d.length == d
    && ".md".data.isSuffixOf (e.1.getLastD "").data

/-- The `*.md` files directly inside directory `d` (the loader's
`d.glob("*.md")`). -/
def mdFilesIn (fs : FS) (d : FilePath') : List (FilePath' × String) :=
  fs.files.filter (isMdChild d)

/-- Modelled from the spec: the external SDK's `load_user_skills()` — "a
loader function, callable with no arguments, that reads a fixed,
process-wide list of candidate directories, scans each for matching fixture
files, parses them, and returns a sequence of opaque records".  The
process-wide state (file system and `USER_SKILLS_DIRS`) is passed
explicitly. -/
def load_user_skills (fs : FS) (dirs : List FilePath') : List Skill :=
  (dirs.map (fun d => (mdFilesIn fs d).filterMap (fun e => parseSkill e.2))).flatten

/-- The mutable process-wide state the harness sees: what `Path.home()`
returns, the SDK module's `USER_SKILLS_DIRS` list, and the file system. -/
structure GlobalState where
  home : FilePath'
  userSkillsDirs : List FilePath'
  fs : FS
deriving DecidableEq

/-- Modelled from the spec: the SDK seeds `USER_SKILLS_DIRS` from the
home-directory resolver — `[Path.home()/.openhands/skills,
Path.home()/.openhands/microagents]`. -/
def defaultUserSkillsDirs (home : FilePath') : List FilePath' :=
  [home ++ [".openhands", "skills"], home ++ [".openhands", "microagents"]]

/-- Model of `test_host_environment()`: resolve home, create the fixtures under
`<home>/.openhands/skills`, call `load_user_skills()`, and return whether at
least one skill came back. -/
def test_host_environment (st : GlobalState) : GlobalState × Bool :=
  let home_dir := st.home
  let skills_dir := home_dir ++ [".openhands", "skills"]
  let created := create_test_skills st.fs skills_dir
  let fs := created.1
  let skills := load_user_skills fs st.userSkillsDirs
  ({ st with fs := fs }, decide (skills.length > 0))

/-- Where an environmental exception strikes inside the container scenario's
`try` block: the `skill as skill_module` import fails, the
`load_user_skills()` call raises, or nothing raises. -/
inductive RaisePoint where
  | importFail
  | loaderFail
  | noRaise
deriving DecidableEq

/-- Model of `test_docker_environment()`: inside a fresh temporary directory, build a
fake container home (empty) and a fake mount (with fixtures), monkey-patch
`Path.home` and `USER_SKILLS_DIRS`, call the loader, and report `true`
exactly when it returned zero skills.  The `finally` block restores
`Path.home` first and `USER_SKILLS_DIRS` second; when the import failed,
`original_dirs`/`skill_module` are unbound, so the `finally` restores
`Path.home` and then itself raises before touching `USER_SKILLS_DIRS`.
`Except.error ()` marks an exception propagating out; the temporary
directory is torn down in every case. -/
def test_docker_environment (st : GlobalState) (tmpdir : FilePath')
    (rp : RaisePoint) : GlobalState × Except Unit Bool :=
  let fs := mkdir1 st.fs tmpdir
  let fake_home := tmpdir ++ ["fake_root"]
  let fs := mkdir1 fs fake_home
  let fake_mount := tmpdir ++ [".openhands"]
  let mount_skills_dir := fake_mount ++ ["skills"]
  let created := create_test_skills fs mount_skills_dir
  let fs := created.1
  let original_home := st.home
  let st := { st with home := fake_home, fs := fs }
  match rp with
  | RaisePoint.importFail =>
    let st := { st with home := original_home }
    let st := { st with fs := removeTree st.fs tmpdir }
    (st, Except.error ())
  | rp =>
    let patched_dirs :=
      [fake_home ++ [".openhands", "skills"],
       fake_home ++ [".openhands", "microagents"]]
    let original_dirs := st.userSkillsDirs
    let st := { st with userSkillsDirs := patched_dirs }
    match rp with
    | RaisePoint.loaderFail =>
      let st := { st with home := original_home, userSkillsDirs := original_dirs }
      let st := { st with fs := removeTree st.fs tmpdir }
      (st, Except.error ())
    | _ =>
      let skills := load_user_skills st.fs st.userSkillsDirs
      let result := decide (skills.length = 0)
      let st := { st with home := original_home, userSkillsDirs := original_dirs }
      let st := { st with fs := removeTree st.fs tmpdir }
      (st, Except.ok result)

/-- The aggregate returned by the service entry point: a source-name-to-count
mapping and the combined skill records. -/
structure SkillsResult where
  sources : List (String × Nat)
  skills : List Skill
deriving DecidableEq

/-- Modelled from the spec: the agent-server's `load_all_skills(...)` — "a
higher-level aggregation function accepting boolean flags for which sources
to include (public/user/project/organization) plus optional location
parameters, returning an object exposing a mapping from source name to count
and a combined sequence of records".  Only the user source is modelled; the
harness disables the other three, and with their flags off they contribute
nothing. -/
def load_all_skills (fs : FS) (userSkillsDirs : List FilePath')
    (load_public load_user load_project load_org : Bool)
    (project_dir : Option FilePath') (org_repo_url org_name : Option String)
    (sandbox_exposed_urls : Option (List String)) : SkillsResult :=
  let userSkills := if load_user then load_user_skills fs userSkillsDirs else []
  { sources := (if load_user then [("user", userSkills.length)] else []),
    skills := userSkills }

/-- Model of `test_full_load_all_skills()`: re-create the fixtures under the real
home, call `load_all_skills` with only `load_user=True`, and return
`result.sources.get("user", 0)`. -/
def test_full_load_all_skills (st : GlobalState) : GlobalState × Nat :=
  let home_dir := st.home
  let skills_dir := home_dir ++ [".openhands", "skills"]
  let created := create_test_skills st.fs skills_dir
  let fs := created.1
  let result := load_all_skills fs st.userSkillsDirs false true false false
    none none none none
  let user_count := ((result.sources.lookup "user").getD 0)
  ({ st with fs := fs }, user_count)

/-- Model of `main()` (named `main'` here since Lean reserves `main` for executables):
run the three scenarios in order host, container, full-service
and `sys.exit(0 if docker_fails else 1)`; an exception from the container
scenario propagates and the exit line is never reached. -/
def main' (st : GlobalState) (tmpdir : FilePath') (rp : RaisePoint) :
    GlobalState × Except Unit Nat :=
  let host := test_host_environment st
  match test_docker_environment host.1 tmpdir rp with
  | (st2, Except.error e) => (st2, Except.error e)
  | (st2, Except.ok docker_fails) =>
    let full := test_full_load_all_skills st2
    (full.1, Except.ok (if docker_fails then 0 else 1))

/-! ### Helper lemmas -/

/-- A sample initial state used by the concrete witnesses: home is
`/home/user`, the SDK search list has its default value, no files exist. -/
def sampleState : GlobalState :=
  { home := ["home", "user"],
    userSkillsDirs := defaultUserSkillsDirs ["home", "user"],
    fs := { dirs := [[], ["home"], ["home", "user"]], files := [] } }

/-- The file list seen by the loader inside the container scenario. -/
def dockerMidFS (st : GlobalState) (tmpdir : FilePath') : FS :=
  (create_test_skills (mkdir1 (mkdir1 st.fs tmpdir) (tmpdir ++ ["fake_root"]))
    ((tmpdir ++ [".openhands"]) ++ ["skills"])).1

/-- The patched `USER_SKILLS_DIRS` used in the container scenario. -/
def dockerPatchedDirs (tmpdir : FilePath') : List FilePath' :=
  [(tmpdir ++ ["fake_root"]) ++ [".openhands", "skills"],
   (tmpdir ++ ["fake_root"]) ++ [".openhands", "microagents"]]

/-- One scenario of the harness, for stating order-insensitivity. -/
inductive Scenario where
  | host
  | container
  | full
deriving DecidableEq

/-- The value each scenario reported during a run (`none` = not run, or the
scenario raised). -/
structure PermResults where
  hostR : Option Bool
  containerR : Option Bool
  fullR : Option Nat
deriving DecidableEq

/-- Run one scenario from a given global state, recording its result. -/
def runScenario (tmpdir : FilePath') (acc : GlobalState × PermResults)
    (s : Scenario) : GlobalState × PermResults :=
  match s with
  | Scenario.host =>
    let r := test_host_environment acc.1
    (r.1, { acc.2 with hostR := some r.2 })
  | Scenario.container =>
    match test_docker_environment acc.1 tmpdir RaisePoint.noRaise with
    | (st2, Except.ok b) => (st2, { acc.2 with containerR := some b })
    | (st2, Except.error _) => (st2, acc.2)
  | Scenario.full =>
    let r := test_full_load_all_skills acc.1
    (r.1, { acc.2 with fullR := some r.2 })

/-- Run the scenarios in the given order, collecting per-scenario results. -/
def runScenarios (st : GlobalState) (tmpdir : FilePath')
    (order : List Scenario) : PermResults :=
  (order.foldl (runScenario tmpdir) (st, ⟨none, none, none⟩)).2

/-- The file list produced by `create_test_skills` under
`<home>/.openhands/skills`, as a function of the previous file list. -/
def createFilesH (home : FilePath') (files : List (FilePath' × String)) :
    List (FilePath' × String) :=
  ((files.filter
      (fun e => e.1 ≠ (home ++ [".openhands", "skills"]) ++ ["deepsolve.md"])).filter
      (fun e => e.1 ≠ (home ++ [".openhands", "skills"]) ++ ["eda.md"])).filter
      (fun e => e.1 ≠ (home ++ [".openhands", "skills"]) ++ ["checkpoint.md"]) ++
    [((home ++ [".openhands", "skills"]) ++ ["deepsolve.md"], deepsolveContent),
     ((home ++ [".openhands", "skills"]) ++ ["eda.md"], edaContent),
     ((home ++ [".openhands", "skills"]) ++ ["checkpoint.md"], checkpointContent)]

/-- The value the host scenario reports, as a function of the globals it
reads. -/
def hostValF (home : FilePath') (udirs : List FilePath')
    (files : List (FilePath' × String)) : Bool :=
  decide (0 < (load_user_skills ⟨[], createFilesH home files⟩ udirs).length)

/-- The value the full-service scenario reports, as a function of the
globals it reads. -/
def fullValF (home : FilePath') (udirs : List FilePath')
    (files : List (FilePath' × String)) : Nat :=
  ((load_all_skills ⟨[], createFilesH home files⟩ udirs false true false false
    none none none none).sources.lookup "user").getD 0

/-- Canonical per-scenario update of the result record: what a scenario
records when the globals are (up to the directory set) those derived from
the initial state `st`. -/
def canonStep (home : FilePath') (udirs : List FilePath')
    (files : List (FilePath' × String)) (res : PermResults) :
    Scenario → PermResults
  | Scenario.host => { res with hostR := some (hostValF home udirs files) }
  | Scenario.container => { res with containerR := some true }
  | Scenario.full => { res with fullR := some (fullValF home udirs files) }

/-- The states reachable while permuting the scenarios: globals equal the
initial ones, file list either untouched or already holding the fixtures. -/
def stInv (st s : GlobalState) : Prop :=
  s.home = st.home ∧ s.userSkillsDirs = st.userSkillsDirs ∧
    (s.fs.files = st.fs.files ∨ s.fs.files = createFilesH st.home st.fs.files)

/-! ### Lemmas and claim theorems -/

lemma mem_foldl_insertDir_left (l : List FilePath') (ds : List FilePath') (a : FilePath')
    (h : a ∈ ds) : a ∈ l.foldl insertDir ds := by
  induction l generalizing ds with
  | nil => exact h
  | cons x xs ih =>
    simp only [List.foldl_cons]
    apply ih
    unfold insertDir
    split <;> simp [h]

lemma mem_foldl_insertDir_of_mem (l : List FilePath') (ds : List FilePath') (a : FilePath')
    (h : a ∈ l) : a ∈ l.foldl insertDir ds := by
  induction l generalizing ds with
  | nil => simp at h
  | cons x xs ih =>
    simp only [List.foldl_cons]
    rcases List.mem_cons.mp h with rfl | h2
    · apply mem_foldl_insertDir_left
      unfold insertDir
      split
      · assumption
      · simp
    · exact ih _ h2

lemma foldl_insertDir_of_forall_mem (l : List FilePath') (ds : List FilePath')
    (h : ∀ a ∈ l, a ∈ ds) : l.foldl insertDir ds = ds := by
  induction l with
  | nil => rfl
  | cons x xs ih =>
    simp only [List.foldl_cons]
    rw [insertDir, if_pos (h x (by simp))]
    exact ih (fun a ha => h a (by simp [ha]))

lemma find?_key_none (l : List (FilePath' × String)) (p : FilePath')
    (h : ∀ e ∈ l, e.1 ≠ p) : List.find? (fun e => e.1 == p) l = none := by
  apply List.find?_eq_none.mpr
  intro x hx
  simp [h x hx]

/-- The file-list part of a `create_test_skills` call: the pre-existing
entries at the three fixture paths are dropped, the three fixtures appended. -/
lemma create_test_skills_files (fs : FS) (dir : FilePath') :
    (create_test_skills fs dir).1.files =
      ((fs.files.filter (fun e => e.1 ≠ dir ++ ["deepsolve.md"])).filter
          (fun e => e.1 ≠ dir ++ ["eda.md"])).filter
          (fun e => e.1 ≠ dir ++ ["checkpoint.md"]) ++
        [(dir ++ ["deepsolve.md"], deepsolveContent),
         (dir ++ ["eda.md"], edaContent),
         (dir ++ ["checkpoint.md"], checkpointContent)] := by
  unfold create_test_skills setFile mkdirP
  simp [List.filter_append, List.filter_filter]

lemma create_test_skills_dirs (fs : FS) (dir : FilePath') :
    (create_test_skills fs dir).1.dirs = (ancestors dir).foldl insertDir fs.dirs := by
  unfold create_test_skills setFile mkdirP
  simp

lemma create_test_skills_paths (fs : FS) (dir : FilePath') :
    (create_test_skills fs dir).2 =
      [dir ++ ["deepsolve.md"], dir ++ ["eda.md"], dir ++ ["checkpoint.md"]] := rfl

lemma parse_deepsolve :
    parseSkill deepsolveContent =
      some ⟨"deepsolve", ["deep-solve", "analysis"], "user"⟩ := by decide

lemma parse_eda :
    parseSkill edaContent = some ⟨"eda", ["eda", "explore-data"], "user"⟩ := by decide

lemma parse_checkpoint :
    parseSkill checkpointContent = some ⟨"checkpoint", [], "user"⟩ := by decide

lemma isMdChild_fixture (d : FilePath') (name c : String)
    (hmd : ".md".data.isSuffixOf name.data = true) :
    isMdChild d (d ++ [name], c) = true := by
  simp [isMdChild, List.take_left, List.getLastD_concat, hmd]

lemma take_two_of_append_three (home : FilePath') (a b c : String) :
    (home ++ [a, b, c]).take (home.length + 2) = home ++ [a, b] := by
  have h := @List.take_append _ home [a, b, c] 2
  simpa using h

lemma isMdChild_skills_not_micro (home : FilePath') (name c : String) :
    isMdChild (home ++ [".openhands", "microagents"])
      (home ++ [".openhands", "skills", name], c) = false := by
  unfold isMdChild
  have h : (home ++ [".openhands", "skills", name]).take
      ((home ++ [".openhands", "microagents"]).length) = home ++ [".openhands", "skills"] := by
    have hl : (home ++ [".openhands", "microagents"]).length = home.length + 2 := by simp
    rw [hl]
    exact take_two_of_append_three home _ _ _
  rw [h]
  simp

/-- Lemma: `mdFilesIn` ignores every entry that a further filter would also have
ignored: if a directory has no md files, it still has none after dropping
entries. -/
lemma mdFilesIn_filter_sub (l : List (FilePath' × String)) (d : FilePath')
    (q : FilePath' × String → Bool)
    (h : List.filter (isMdChild d) l = []) :
    List.filter (isMdChild d) (List.filter q l) = [] := by
  rw [List.filter_eq_nil_iff] at h ⊢
  intro a ha
  exact h a (List.mem_of_mem_filter ha)

/-- After `create_test_skills fs dir`, the md files directly in `dir` are
exactly the three fixtures, provided `dir` had none before. -/
lemma mdFilesIn_create_self (fs : FS) (dir : FilePath')
    (h : mdFilesIn fs dir = []) :
    mdFilesIn (create_test_skills fs dir).1 dir =
      [(dir ++ ["deepsolve.md"], deepsolveContent),
       (dir ++ ["eda.md"], edaContent),
       (dir ++ ["checkpoint.md"], checkpointContent)] := by
  rw [mdFilesIn] at h
  rw [mdFilesIn, create_test_skills_files, List.filter_append,
    mdFilesIn_filter_sub _ _ _ (mdFilesIn_filter_sub _ _ _ (mdFilesIn_filter_sub _ _ _ h))]
  have f1 := isMdChild_fixture dir "deepsolve.md" deepsolveContent (by decide)
  have f2 := isMdChild_fixture dir "eda.md" edaContent (by decide)
  have f3 := isMdChild_fixture dir "checkpoint.md" checkpointContent (by decide)
  simp [List.filter_cons, f1, f2, f3]

/-- Lemma: `create_test_skills` on the skills directory adds no md files to the
sibling microagents directory. -/
lemma mdFilesIn_create_micro (fs : FS) (home : FilePath')
    (h : mdFilesIn fs (home ++ [".openhands", "microagents"]) = []) :
    mdFilesIn (create_test_skills fs (home ++ [".openhands", "skills"])).1
      (home ++ [".openhands", "microagents"]) = [] := by
  rw [mdFilesIn] at h
  rw [mdFilesIn, create_test_skills_files, List.filter_append,
    mdFilesIn_filter_sub _ _ _ (mdFilesIn_filter_sub _ _ _ (mdFilesIn_filter_sub _ _ _ h))]
  have e1 := isMdChild_skills_not_micro home "deepsolve.md" deepsolveContent
  have e2 := isMdChild_skills_not_micro home "eda.md" edaContent
  have e3 := isMdChild_skills_not_micro home "checkpoint.md" checkpointContent
  simp [List.filter_cons, e1, e2, e3]

/-- With both candidate directories initially free of md files, the loader
after fixture creation returns exactly the three fixture records. -/
lemma load_user_skills_host (fs : FS) (home : FilePath')
    (hskills : mdFilesIn fs (home ++ [".openhands", "skills"]) = [])
    (hmicro : mdFilesIn fs (home ++ [".openhands", "microagents"]) = []) :
    load_user_skills (create_test_skills fs (home ++ [".openhands", "skills"])).1
      (defaultUserSkillsDirs home) =
      [{ name := "deepsolve", triggers := ["deep-solve", "analysis"], source := "user" },
       { name := "eda", triggers := ["eda", "explore-data"], source := "user" },
       { name := "checkpoint", triggers := [], source := "user" }] := by
  rw [load_user_skills, defaultUserSkillsDirs]
  simp only [List.map_cons, List.map_nil]
  rw [mdFilesIn_create_self _ _ hskills, mdFilesIn_create_micro _ _ hmicro]
  simp [parse_deepsolve, parse_eda, parse_checkpoint]

/-- C4: in the host scenario, with the fixtures created beneath the resolved
home directory, the loader returns exactly the three records `deepsolve`
(triggers `deep-solve`, `analysis`), `eda` (triggers `eda`, `explore-data`)
and `checkpoint` (no triggers field, so empty triggers), each name and
trigger list matching its file's declared header. -/
theorem host_loader_returns_three_fixture_skills (st : GlobalState)
    (hdirs : st.userSkillsDirs = defaultUserSkillsDirs st.home)
    (hskills : mdFilesIn st.fs (st.home ++ [".openhands", "skills"]) = [])
    (hmicro : mdFilesIn st.fs (st.home ++ [".openhands", "microagents"]) = []) :
    load_user_skills
        (create_test_skills st.fs (st.home ++ [".openhands", "skills"])).1
        st.userSkillsDirs =
      [{ name := "deepsolve", triggers := ["deep-solve", "analysis"], source := "user" },
       { name := "eda", triggers := ["eda", "explore-data"], source := "user" },
       { name := "checkpoint", triggers := [], source := "user" }] ∧
    (test_host_environment st).2 = true := by
  have hl := load_user_skills_host st.fs st.home hskills hmicro
  refine ⟨by rw [hdirs]; exact hl, ?_⟩
  rw [test_host_environment]
  simp only [hdirs, hl]
  rfl

/-- Witness for C4 at the concrete sample state. -/
theorem host_loader_returns_three_fixture_skills_witness :
    load_user_skills
        (create_test_skills sampleState.fs
          (sampleState.home ++ [".openhands", "skills"])).1
        sampleState.userSkillsDirs =
      [{ name := "deepsolve", triggers := ["deep-solve", "analysis"], source := "user" },
       { name := "eda", triggers := ["eda", "explore-data"], source := "user" },
       { name := "checkpoint", triggers := [], source := "user" }] ∧
    (test_host_environment sampleState).2 = true :=
  host_loader_returns_three_fixture_skills sampleState rfl (by decide) (by decide)

/-- C5: the host scenario creates the fixtures under
`<home>/.openhands/skills` and reports success exactly when the loader
returned at least one record. -/
theorem host_scenario_succeeds_iff_any_skill (st : GlobalState) :
    (test_host_environment st).1 =
      { st with fs :=
          (create_test_skills st.fs (st.home ++ [".openhands", "skills"])).1 } ∧
    ((test_host_environment st).2 = true ↔
      0 < (load_user_skills
        (create_test_skills st.fs (st.home ++ [".openhands", "skills"])).1
        st.userSkillsDirs).length) := by
  refine ⟨rfl, ?_⟩
  rw [test_host_environment]
  simp

/-- C6: for every target directory, `create_test_skills` creates the
directory and its ancestors, writes exactly the three fixed fixture files
(one header with two triggers, one with two different triggers, one with no
triggers field), and returns exactly those three paths. -/
theorem create_test_skills_writes_three_fixtures (fs : FS) (dir : FilePath') :
    (create_test_skills fs dir).2 =
        [dir ++ ["deepsolve.md"], dir ++ ["eda.md"], dir ++ ["checkpoint.md"]] ∧
    (create_test_skills fs dir).1.files =
      ((fs.files.filter (fun e => e.1 ≠ dir ++ ["deepsolve.md"])).filter
          (fun e => e.1 ≠ dir ++ ["eda.md"])).filter
          (fun e => e.1 ≠ dir ++ ["checkpoint.md"]) ++
        [(dir ++ ["deepsolve.md"], deepsolveContent),
         (dir ++ ["eda.md"], edaContent),
         (dir ++ ["checkpoint.md"], checkpointContent)] ∧
    getFile (create_test_skills fs dir).1 (dir ++ ["deepsolve.md"]) =
      some deepsolveContent ∧
    getFile (create_test_skills fs dir).1 (dir ++ ["eda.md"]) = some edaContent ∧
    getFile (create_test_skills fs dir).1 (dir ++ ["checkpoint.md"]) =
      some checkpointContent ∧
    (∀ a ∈ ancestors dir, a ∈ (create_test_skills fs dir).1.dirs) ∧
    (parseSkill deepsolveContent).map Skill.get_triggers =
      some ["deep-solve", "analysis"] ∧
    (parseSkill edaContent).map Skill.get_triggers = some ["eda", "explore-data"] ∧
    (parseSkill checkpointContent).map Skill.get_triggers = some [] := by
  have hfiles := create_test_skills_files fs dir
  have hA : ∀ e ∈ ((fs.files.filter (fun e => e.1 ≠ dir ++ ["deepsolve.md"])).filter
          (fun e => e.1 ≠ dir ++ ["eda.md"])).filter
          (fun e => e.1 ≠ dir ++ ["checkpoint.md"]),
      e.1 ≠ dir ++ ["deepsolve.md"] ∧ e.1 ≠ dir ++ ["eda.md"] ∧
        e.1 ≠ dir ++ ["checkpoint.md"] := by
    intro e he
    simp only [List.mem_filter, decide_eq_true_eq] at he
    exact ⟨he.1.1.2, he.1.2, he.2⟩
  refine ⟨rfl, hfiles, ?_, ?_, ?_, ?_, by decide, by decide, by decide⟩
  · rw [getFile, hfiles, List.find?_append,
      find?_key_none _ _ (fun e he => (hA e he).1)]
    simp
  · rw [getFile, hfiles, List.find?_append,
      find?_key_none _ _ (fun e he => (hA e he).2.1)]
    simp
  · rw [getFile, hfiles, List.find?_append,
      find?_key_none _ _ (fun e he => (hA e he).2.2)]
    simp
  · intro a ha
    rw [create_test_skills_dirs]
    exact mem_foldl_insertDir_of_mem _ _ a ha

/-- C7: fixture creation is idempotent — running it twice on the same
directory leaves the file system exactly as one run does and returns the
same path list. -/
theorem create_test_skills_idempotent (fs : FS) (dir : FilePath') :
    create_test_skills (create_test_skills fs dir).1 dir =
      create_test_skills fs dir := by
  unfold create_test_skills setFile mkdirP
  simp only [List.filter_append, Prod.mk.injEq, FS.mk.injEq]
  refine ⟨⟨?_, ?_⟩, trivial⟩
  · exact foldl_insertDir_of_forall_mem _ _
      (fun a ha => mem_foldl_insertDir_of_mem _ _ a ha)
  · simp
    apply List.filter_congr
    intro x _
    by_cases h1 : x.1 = dir ++ ["deepsolve.md"] <;>
      by_cases h2 : x.1 = dir ++ ["eda.md"] <;>
        by_cases h3 : x.1 = dir ++ ["checkpoint.md"] <;> simp [h1, h2, h3]

/-- A md-file child of a directory below `tmpdir` lies below `tmpdir`. -/
lemma isMdChild_under (tmpdir rest : FilePath') (e : FilePath' × String)
    (h : isMdChild (tmpdir ++ rest) e = true) : underDir tmpdir e.1 = true := by
  unfold isMdChild at h
  simp only [Bool.and_eq_true, beq_iff_eq] at h
  have htake := h.1.2
  unfold underDir
  have h1 : e.1.take tmpdir.length = (e.1.take (tmpdir ++ rest).length).take tmpdir.length := by
    rw [List.take_take]
    have : tmpdir.length ⊓ (tmpdir ++ rest).length = tmpdir.length := by
      simp [List.length_append]
    rw [this]
  rw [h1, htake, List.take_left]
  simp

lemma isMdChild_len_ne (d : FilePath') (e : FilePath' × String)
    (h : e.1.length ≠ d.length + 1) : isMdChild d e = false := by
  unfold isMdChild
  simp [h]

/-- Inside the container scenario, a directory three levels below the fresh
`tmpdir` holds no md files: the pre-existing files are outside `tmpdir` and
the mount fixtures sit at depth `tmpdir + 3`, one level short of being its
children. -/
lemma docker_mdFiles_empty (st : GlobalState) (tmpdir : FilePath')
    (hfresh : ∀ e ∈ st.fs.files, underDir tmpdir e.1 = false)
    (rest : FilePath') (hlen : rest.length = 3) :
    mdFilesIn (dockerMidFS st tmpdir) (tmpdir ++ rest) = [] := by
  rw [mdFilesIn]
  have hfiles : (dockerMidFS st tmpdir).files =
      (((st.fs.files.filter
          (fun e => e.1 ≠ ((tmpdir ++ [".openhands"]) ++ ["skills"]) ++ ["deepsolve.md"])).filter
          (fun e => e.1 ≠ ((tmpdir ++ [".openhands"]) ++ ["skills"]) ++ ["eda.md"])).filter
          (fun e => e.1 ≠ ((tmpdir ++ [".openhands"]) ++ ["skills"]) ++ ["checkpoint.md"])) ++
        [(((tmpdir ++ [".openhands"]) ++ ["skills"]) ++ ["deepsolve.md"], deepsolveContent),
         (((tmpdir ++ [".openhands"]) ++ ["skills"]) ++ ["eda.md"], edaContent),
         (((tmpdir ++ [".openhands"]) ++ ["skills"]) ++ ["checkpoint.md"], checkpointContent)] := by
    rw [dockerMidFS, create_test_skills_files]
    rfl
  rw [hfiles, List.filter_append]
  have hleft : List.filter (isMdChild (tmpdir ++ rest))
      (((st.fs.files.filter
          (fun e => e.1 ≠ ((tmpdir ++ [".openhands"]) ++ ["skills"]) ++ ["deepsolve.md"])).filter
          (fun e => e.1 ≠ ((tmpdir ++ [".openhands"]) ++ ["skills"]) ++ ["eda.md"])).filter
          (fun e => e.1 ≠ ((tmpdir ++ [".openhands"]) ++ ["skills"]) ++ ["checkpoint.md"])) = [] := by
    apply List.filter_eq_nil_iff.mpr
    intro a ha
    intro hmd
    have hmem : a ∈ st.fs.files :=
      List.mem_of_mem_filter (List.mem_of_mem_filter (List.mem_of_mem_filter ha))
    have := isMdChild_under tmpdir rest a hmd
    rw [hfresh a hmem] at this
    exact Bool.false_ne_true this
  rw [hleft]
  have hlen1 : ∀ name : String,
      ((((tmpdir ++ [".openhands"]) ++ ["skills"]) ++ [name]).length ≠
        (tmpdir ++ rest).length + 1) := by
    intro name
    simp [hlen]
  have e1 := isMdChild_len_ne (tmpdir ++ rest)
    (((tmpdir ++ [".openhands"]) ++ ["skills"]) ++ ["deepsolve.md"], deepsolveContent)
    (hlen1 "deepsolve.md")
  have e2 := isMdChild_len_ne (tmpdir ++ rest)
    (((tmpdir ++ [".openhands"]) ++ ["skills"]) ++ ["eda.md"], edaContent)
    (hlen1 "eda.md")
  have e3 := isMdChild_len_ne (tmpdir ++ rest)
    (((tmpdir ++ [".openhands"]) ++ ["skills"]) ++ ["checkpoint.md"], checkpointContent)
    (hlen1 "checkpoint.md")
  simp only [List.append_assoc, List.cons_append, List.nil_append] at e1 e2 e3
  simp [List.filter_cons, e1, e2, e3]

/-- Inside a fresh `tmpdir`, the loader sees no md files in either patched
search directory. -/
lemma docker_loader_empty (st : GlobalState) (tmpdir : FilePath')
    (hfresh : ∀ e ∈ st.fs.files, underDir tmpdir e.1 = false) :
    load_user_skills (dockerMidFS st tmpdir) (dockerPatchedDirs tmpdir) = [] := by
  rw [load_user_skills, dockerPatchedDirs]
  have a1 : (tmpdir ++ ["fake_root"]) ++ [".openhands", "skills"] =
      tmpdir ++ ["fake_root", ".openhands", "skills"] := by simp
  have a2 : (tmpdir ++ ["fake_root"]) ++ [".openhands", "microagents"] =
      tmpdir ++ ["fake_root", ".openhands", "microagents"] := by simp
  rw [List.map_cons, List.map_cons, List.map_nil, a1, a2,
    docker_mdFiles_empty st tmpdir hfresh ["fake_root", ".openhands", "skills"] rfl,
    docker_mdFiles_empty st tmpdir hfresh ["fake_root", ".openhands", "microagents"] rfl]
  simp

/-- Inside a fresh `tmpdir`, the container scenario reports the defect
reproduced. -/
lemma docker_noRaise_ok (st : GlobalState) (tmpdir : FilePath')
    (hfresh : ∀ e ∈ st.fs.files, underDir tmpdir e.1 = false) :
    (test_docker_environment st tmpdir RaisePoint.noRaise).2 = Except.ok true := by
  have hred : (test_docker_environment st tmpdir RaisePoint.noRaise).2 =
      Except.ok (decide ((load_user_skills (dockerMidFS st tmpdir)
        (dockerPatchedDirs tmpdir)).length = 0)) := rfl
  rw [hred, docker_loader_empty st tmpdir hfresh]
  simp

/-- Both globals come back to their pre-scenario values on every exception
path of the container scenario. -/
lemma docker_restores (st : GlobalState) (tmpdir : FilePath') (rp : RaisePoint) :
    (test_docker_environment st tmpdir rp).1.home = st.home ∧
    (test_docker_environment st tmpdir rp).1.userSkillsDirs = st.userSkillsDirs := by
  cases rp <;> exact ⟨rfl, rfl⟩

/-- C2: the container scenario builds the simulated tree, patches the
resolver and `USER_SKILLS_DIRS` to the two fake-home directories, and the
loader — whose result decides the returned flag, `true` iff zero records —
finds zero records there, so the scenario returns `true` (defect
reproduced), provided the temporary directory is fresh (no files under it). -/
theorem docker_scenario_reproduces (st : GlobalState) (tmpdir : FilePath')
    (hfresh : ∀ e ∈ st.fs.files, underDir tmpdir e.1 = false) :
    load_user_skills (dockerMidFS st tmpdir) (dockerPatchedDirs tmpdir) = [] ∧
    (test_docker_environment st tmpdir RaisePoint.noRaise).2 = Except.ok true :=
  ⟨docker_loader_empty st tmpdir hfresh, docker_noRaise_ok st tmpdir hfresh⟩

/-- Witness for C2 at the concrete sample state and `/tmp/x`. -/
theorem docker_scenario_reproduces_witness :
    load_user_skills (dockerMidFS sampleState ["tmp", "x"])
      (dockerPatchedDirs ["tmp", "x"]) = [] ∧
    (test_docker_environment sampleState ["tmp", "x"] RaisePoint.noRaise).2 =
      Except.ok true :=
  docker_scenario_reproduces sampleState ["tmp", "x"] (by decide)

/-- C3: whatever happens inside the container scenario (normal return,
loader exception, or even a failing import), the home resolver and the
search-path list afterwards equal their pre-scenario values. -/
theorem docker_scenario_restores_globals (st : GlobalState) (tmpdir : FilePath')
    (rp : RaisePoint) :
    (test_docker_environment st tmpdir rp).1.home = st.home ∧
    (test_docker_environment st tmpdir rp).1.userSkillsDirs = st.userSkillsDirs :=
  docker_restores st tmpdir rp

/-- C10: when the skill-module import raises before `original_dirs` was
saved, the `finally` block still restores the home resolver, the exception
propagates (`error`), and the search-path list — never mutated on this path
— keeps its original value. -/
theorem docker_import_failure_restores_home_first (st : GlobalState)
    (tmpdir : FilePath') :
    (test_docker_environment st tmpdir RaisePoint.importFail).2 = Except.error () ∧
    (test_docker_environment st tmpdir RaisePoint.importFail).1.home = st.home ∧
    (test_docker_environment st tmpdir RaisePoint.importFail).1.userSkillsDirs =
      st.userSkillsDirs :=
  ⟨rfl, rfl, rfl⟩

/-- C8: the full-service scenario re-creates the fixtures under the real
home, calls the aggregator with only the user source enabled and all
optional locations absent, and returns the count under the `"user"` key of
the source map (0 when absent) — which equals the loader's record count. -/
theorem full_service_returns_user_count (st : GlobalState) :
    (test_full_load_all_skills st).1 =
      { st with fs :=
          (create_test_skills st.fs (st.home ++ [".openhands", "skills"])).1 } ∧
    (test_full_load_all_skills st).2 =
      ((load_all_skills
          (create_test_skills st.fs (st.home ++ [".openhands", "skills"])).1
          st.userSkillsDirs false true false false none none none
          none).sources.lookup "user").getD 0 ∧
    (test_full_load_all_skills st).2 =
      (load_user_skills
        (create_test_skills st.fs (st.home ++ [".openhands", "skills"])).1
        st.userSkillsDirs).length := by
  refine ⟨rfl, rfl, ?_⟩
  simp [test_full_load_all_skills, load_all_skills]

/-- C1: `main()` runs host, container, full-service in that order and exits
with code 0 exactly when the container scenario reported the defect
reproduced, and 1 otherwise, whatever the other two scenarios returned. -/
theorem main_exit_zero_iff_docker_reproduced (st : GlobalState)
    (tmpdir : FilePath') (rp : RaisePoint) (code : Nat)
    (h : (main' st tmpdir rp).2 = Except.ok code) :
    (code = 0 ∨ code = 1) ∧
    (code = 0 ↔
      (test_docker_environment (test_host_environment st).1 tmpdir rp).2 =
        Except.ok true) := by
  unfold main' at h
  rcases hr : test_docker_environment (test_host_environment st).1 tmpdir rp with ⟨st2, r⟩
  simp only [hr] at h
  cases r with
  | error e => simp at h
  | ok b =>
    simp only [] at h
    cases b <;> simp_all <;> omega

/-- Witness for C1 at the concrete sample state. -/
theorem main_exit_zero_iff_docker_reproduced_witness :
    ((0 : Nat) = 0 ∨ (0 : Nat) = 1) ∧
    ((0 : Nat) = 0 ↔
      (test_docker_environment (test_host_environment sampleState).1 ["tmp", "x"]
        RaisePoint.noRaise).2 = Except.ok true) :=
  main_exit_zero_iff_docker_reproduced sampleState ["tmp", "x"] RaisePoint.noRaise 0
    (by rfl)

lemma load_files_congr (fs₁ fs₂ : FS) (dirs : List FilePath')
    (h : fs₁.files = fs₂.files) :
    load_user_skills fs₁ dirs = load_user_skills fs₂ dirs := by
  unfold load_user_skills mdFilesIn
  rw [h]

lemma load_all_files_congr (fs₁ fs₂ : FS) (udirs : List FilePath')
    (h : fs₁.files = fs₂.files) :
    load_all_skills fs₁ udirs false true false false none none none none =
      load_all_skills fs₂ udirs false true false false none none none none := by
  unfold load_all_skills
  rw [load_files_congr fs₁ fs₂ udirs h]

lemma host_home (st : GlobalState) :
    (test_host_environment st).1.home = st.home := rfl

lemma host_udirs (st : GlobalState) :
    (test_host_environment st).1.userSkillsDirs = st.userSkillsDirs := rfl

lemma host_files_eq (st : GlobalState) :
    (test_host_environment st).1.fs.files = createFilesH st.home st.fs.files := by
  have h0 : (test_host_environment st).1.fs.files =
      (create_test_skills st.fs (st.home ++ [".openhands", "skills"])).1.files := rfl
  rw [h0, create_test_skills_files]
  rfl

lemma host_val_eq (st : GlobalState) :
    (test_host_environment st).2 = hostValF st.home st.userSkillsDirs st.fs.files := by
  have h0 : (test_host_environment st).2 =
      decide (0 < (load_user_skills
        (create_test_skills st.fs (st.home ++ [".openhands", "skills"])).1
        st.userSkillsDirs).length) := rfl
  rw [h0, hostValF,
    load_files_congr (create_test_skills st.fs (st.home ++ [".openhands", "skills"])).1
      ⟨[], createFilesH st.home st.fs.files⟩ st.userSkillsDirs
      (by rw [create_test_skills_files]; rfl)]

lemma full_home (st : GlobalState) :
    (test_full_load_all_skills st).1.home = st.home := rfl

lemma full_udirs (st : GlobalState) :
    (test_full_load_all_skills st).1.userSkillsDirs = st.userSkillsDirs := rfl

lemma full_files_eq (st : GlobalState) :
    (test_full_load_all_skills st).1.fs.files =
      createFilesH st.home st.fs.files := by
  have h0 : (test_full_load_all_skills st).1.fs.files =
      (create_test_skills st.fs (st.home ++ [".openhands", "skills"])).1.files := rfl
  rw [h0, create_test_skills_files]
  rfl

lemma full_val_eq (st : GlobalState) :
    (test_full_load_all_skills st).2 =
      fullValF st.home st.userSkillsDirs st.fs.files := by
  have h0 : (test_full_load_all_skills st).2 =
      ((load_all_skills
        (create_test_skills st.fs (st.home ++ [".openhands", "skills"])).1
        st.userSkillsDirs false true false false none none none
        none).sources.lookup "user").getD 0 := rfl
  rw [h0, fullValF,
    load_all_files_congr
      (create_test_skills st.fs (st.home ++ [".openhands", "skills"])).1
      ⟨[], createFilesH st.home st.fs.files⟩ st.userSkillsDirs
      (by rw [create_test_skills_files]; rfl)]

lemma createFilesH_idem (home : FilePath') (files : List (FilePath' × String)) :
    createFilesH home (createFilesH home files) = createFilesH home files := by
  unfold createFilesH
  simp [List.filter_append]
  apply List.filter_congr
  intro x _
  by_cases h1 : x.1 = home ++ [".openhands", "skills", "deepsolve.md"] <;>
    by_cases h2 : x.1 = home ++ [".openhands", "skills", "eda.md"] <;>
      by_cases h3 : x.1 = home ++ [".openhands", "skills", "checkpoint.md"] <;>
        simp [h1, h2, h3]

lemma underDir_append (t r : FilePath') : underDir t (t ++ r) = true := by
  unfold underDir
  rw [List.take_left]
  simp

lemma filter_ne_self_of_fresh (files : List (FilePath' × String)) (t p : FilePath')
    (hp : underDir t p = true)
    (hfresh : ∀ e ∈ files, underDir t e.1 = false) :
    files.filter (fun e => e.1 ≠ p) = files := by
  apply List.filter_eq_self.mpr
  intro a ha
  have hne : a.1 ≠ p := by
    intro hEq
    have h1 := hfresh a ha
    rw [hEq, hp] at h1
    exact Bool.false_ne_true h1.symm
  simp [hne]

/-- Fixture creation under a home outside `tmpdir` keeps the file list free
of entries under `tmpdir`. -/
lemma fresh_createFilesH (t home : FilePath') (files : List (FilePath' × String))
    (hfresh : ∀ e ∈ files, underDir t e.1 = false)
    (hdisj : ∀ name : String,
      underDir t (home ++ [".openhands", "skills", name]) = false) :
    ∀ e ∈ createFilesH home files, underDir t e.1 = false := by
  intro e he
  unfold createFilesH at he
  rcases List.mem_append.mp he with hl | hr
  · exact hfresh e
      (List.mem_of_mem_filter (List.mem_of_mem_filter (List.mem_of_mem_filter hl)))
  · have ha : (home ++ [".openhands", "skills"]) ++ ["deepsolve.md"] =
        home ++ [".openhands", "skills", "deepsolve.md"] := by simp
    have hb : (home ++ [".openhands", "skills"]) ++ ["eda.md"] =
        home ++ [".openhands", "skills", "eda.md"] := by simp
    have hc : (home ++ [".openhands", "skills"]) ++ ["checkpoint.md"] =
        home ++ [".openhands", "skills", "checkpoint.md"] := by simp
    rcases List.mem_cons.mp hr with h1 | hr1
    · rw [h1]
      rw [ha]
      exact hdisj "deepsolve.md"
    rcases List.mem_cons.mp hr1 with h2 | hr2
    · rw [h2]
      rw [hb]
      exact hdisj "eda.md"
    rcases List.mem_cons.mp hr2 with h3 | hr3
    · rw [h3]
      rw [hc]
      exact hdisj "checkpoint.md"
    · simp at hr3

/-- With a fresh `tmpdir`, tearing down the temporary directory restores the
file list to its pre-scenario value. -/
lemma docker_noRaise_files (st : GlobalState) (tmpdir : FilePath')
    (hfresh : ∀ e ∈ st.fs.files, underDir tmpdir e.1 = false) :
    (test_docker_environment st tmpdir RaisePoint.noRaise).1.fs.files =
      st.fs.files := by
  have h0 : (test_docker_environment st tmpdir RaisePoint.noRaise).1.fs.files =
      (dockerMidFS st tmpdir).files.filter (fun e => ¬ underDir tmpdir e.1) := rfl
  have hmid : (dockerMidFS st tmpdir).files =
      (((st.fs.files.filter
          (fun e => e.1 ≠ ((tmpdir ++ [".openhands"]) ++ ["skills"]) ++ ["deepsolve.md"])).filter
          (fun e => e.1 ≠ ((tmpdir ++ [".openhands"]) ++ ["skills"]) ++ ["eda.md"])).filter
          (fun e => e.1 ≠ ((tmpdir ++ [".openhands"]) ++ ["skills"]) ++ ["checkpoint.md"])) ++
        [(((tmpdir ++ [".openhands"]) ++ ["skills"]) ++ ["deepsolve.md"], deepsolveContent),
         (((tmpdir ++ [".openhands"]) ++ ["skills"]) ++ ["eda.md"], edaContent),
         (((tmpdir ++ [".openhands"]) ++ ["skills"]) ++ ["checkpoint.md"], checkpointContent)] := by
    rw [dockerMidFS, create_test_skills_files]
    rfl
  have hu : ∀ name : String,
      underDir tmpdir (((tmpdir ++ [".openhands"]) ++ ["skills"]) ++ [name]) = true := by
    intro name
    have : ((tmpdir ++ [".openhands"]) ++ ["skills"]) ++ [name] =
        tmpdir ++ [".openhands", "skills", name] := by simp
    rw [this]
    exact underDir_append tmpdir [".openhands", "skills", name]
  have hf1 := filter_ne_self_of_fresh st.fs.files tmpdir
    (((tmpdir ++ [".openhands"]) ++ ["skills"]) ++ ["deepsolve.md"]) (hu "deepsolve.md") hfresh
  have hfresh2 : ∀ e ∈ st.fs.files.filter
      (fun e => e.1 ≠ ((tmpdir ++ [".openhands"]) ++ ["skills"]) ++ ["deepsolve.md"]),
      underDir tmpdir e.1 = false :=
    fun e he => hfresh e (List.mem_of_mem_filter he)
  have hf2 := filter_ne_self_of_fresh _ tmpdir
    (((tmpdir ++ [".openhands"]) ++ ["skills"]) ++ ["eda.md"]) (hu "eda.md") hfresh2
  have hfresh3 : ∀ e ∈ (st.fs.files.filter
      (fun e => e.1 ≠ ((tmpdir ++ [".openhands"]) ++ ["skills"]) ++ ["deepsolve.md"])).filter
      (fun e => e.1 ≠ ((tmpdir ++ [".openhands"]) ++ ["skills"]) ++ ["eda.md"]),
      underDir tmpdir e.1 = false :=
    fun e he => hfresh2 e (List.mem_of_mem_filter he)
  have hf3 := filter_ne_self_of_fresh _ tmpdir
    (((tmpdir ++ [".openhands"]) ++ ["skills"]) ++ ["checkpoint.md"]) (hu "checkpoint.md") hfresh3
  rw [h0, hmid, hf3, hf2, hf1, List.filter_append]
  have hkeep : st.fs.files.filter (fun e => ¬ underDir tmpdir e.1) = st.fs.files := by
    apply List.filter_eq_self.mpr
    intro a ha
    simp [hfresh a ha]
  have hdrop : List.filter (fun e => ¬ underDir tmpdir e.1)
      [(((tmpdir ++ [".openhands"]) ++ ["skills"]) ++ ["deepsolve.md"], deepsolveContent),
       (((tmpdir ++ [".openhands"]) ++ ["skills"]) ++ ["eda.md"], edaContent),
       (((tmpdir ++ [".openhands"]) ++ ["skills"]) ++ ["checkpoint.md"], checkpointContent)] = [] := by
    have u1 : underDir tmpdir (tmpdir ++ [".openhands", "skills", "deepsolve.md"]) = true :=
      underDir_append tmpdir [".openhands", "skills", "deepsolve.md"]
    have u2 : underDir tmpdir (tmpdir ++ [".openhands", "skills", "eda.md"]) = true :=
      underDir_append tmpdir [".openhands", "skills", "eda.md"]
    have u3 : underDir tmpdir (tmpdir ++ [".openhands", "skills", "checkpoint.md"]) = true :=
      underDir_append tmpdir [".openhands", "skills", "checkpoint.md"]
    simp [List.filter_cons, u1, u2, u3]
  rw [hkeep, hdrop, List.append_nil]

/-- Each scenario step records its canonical value and preserves the
reachable-state invariant. -/
lemma runScenario_canon (st : GlobalState) (tmpdir : FilePath')
    (hfresh : ∀ e ∈ st.fs.files, underDir tmpdir e.1 = false)
    (hdisj : ∀ name : String,
      underDir tmpdir (st.home ++ [".openhands", "skills", name]) = false)
    (s : GlobalState) (res : PermResults) (sc : Scenario)
    (hinv : stInv st s) :
    (runScenario tmpdir (s, res) sc).2 =
      canonStep st.home st.userSkillsDirs st.fs.files res sc ∧
    stInv st (runScenario tmpdir (s, res) sc).1 := by
  obtain ⟨hh, hu, hf⟩ := hinv
  have hfreshS : ∀ e ∈ s.fs.files, underDir tmpdir e.1 = false := by
    rcases hf with hf | hf
    · rw [hf]; exact hfresh
    · rw [hf]; exact fresh_createFilesH tmpdir st.home st.fs.files hfresh hdisj
  cases sc with
  | host =>
    constructor
    · show ({ res with hostR := some (test_host_environment s).2 } : PermResults) =
        { res with hostR := some (hostValF st.home st.userSkillsDirs st.fs.files) }
      rw [host_val_eq s, hh, hu]
      rcases hf with hf | hf
      · rw [hf]
      · rw [hf, hostValF, hostValF, createFilesH_idem]
    · refine ⟨host_home s ▸ hh, host_udirs s ▸ hu, Or.inr ?_⟩
      show (test_host_environment s).1.fs.files = createFilesH st.home st.fs.files
      rw [host_files_eq s, hh]
      rcases hf with hf | hf
      · rw [hf]
      · rw [hf, createFilesH_idem]
  | container =>
    have hok := docker_noRaise_ok s tmpdir hfreshS
    have hfiles := docker_noRaise_files s tmpdir hfreshS
    have hrest := docker_restores s tmpdir RaisePoint.noRaise
    rcases hd : test_docker_environment s tmpdir RaisePoint.noRaise with ⟨st2, r⟩
    rw [hd] at hok hfiles hrest
    simp only [] at hok hfiles hrest
    subst hok
    have hred : runScenario tmpdir (s, res) Scenario.container =
        (st2, { res with containerR := some true }) := by
      unfold runScenario
      rw [hd]
    rw [hred]
    refine ⟨rfl, hrest.1.trans hh, hrest.2.trans hu, ?_⟩
    rw [hfiles]
    exact hf
  | full =>
    constructor
    · show ({ res with fullR := some (test_full_load_all_skills s).2 } : PermResults) =
        { res with fullR := some (fullValF st.home st.userSkillsDirs st.fs.files) }
      rw [full_val_eq s, hh, hu]
      rcases hf with hf | hf
      · rw [hf]
      · rw [hf, fullValF, fullValF, createFilesH_idem]
    · refine ⟨full_home s ▸ hh, full_udirs s ▸ hu, Or.inr ?_⟩
      show (test_full_load_all_skills s).1.fs.files = createFilesH st.home st.fs.files
      rw [full_files_eq s, hh]
      rcases hf with hf | hf
      · rw [hf]
      · rw [hf, createFilesH_idem]

/-- Folding the scenario runner from any reachable state records the same
values as folding the canonical updates. -/
lemma runScenarios_canon (st : GlobalState) (tmpdir : FilePath')
    (hfresh : ∀ e ∈ st.fs.files, underDir tmpdir e.1 = false)
    (hdisj : ∀ name : String,
      underDir tmpdir (st.home ++ [".openhands", "skills", name]) = false)
    (order : List Scenario) :
    ∀ (s : GlobalState) (res : PermResults), stInv st s →
      (order.foldl (runScenario tmpdir) (s, res)).2 =
        order.foldl (canonStep st.home st.userSkillsDirs st.fs.files) res := by
  induction order with
  | nil =>
    intro s res _
    rfl
  | cons sc rest ih =>
    intro s res hinv
    simp only [List.foldl_cons]
    have h := runScenario_canon st tmpdir hfresh hdisj s res sc hinv
    rcases hq : runScenario tmpdir (s, res) sc with ⟨s2, res2⟩
    rw [hq] at h
    simp only [] at h
    rw [h.1]
    exact ih s2 (canonStep st.home st.userSkillsDirs st.fs.files res sc) h.2

/-- C9: from a state whose file system is disjoint from the fresh temporary
directory, running the three scenarios in any permuted order records, for
each scenario, the same result value as the fixed order host, container,
full-service used by `main()`. -/
theorem scenarios_order_insensitive (st : GlobalState) (tmpdir : FilePath')
    (hfresh : ∀ e ∈ st.fs.files, underDir tmpdir e.1 = false)
    (hdisj : ∀ name : String,
      underDir tmpdir (st.home ++ [".openhands", "skills", name]) = false)
    (order : List Scenario)
    (hperm : order.Perm [Scenario.host, Scenario.container, Scenario.full]) :
    runScenarios st tmpdir order =
      runScenarios st tmpdir [Scenario.host, Scenario.container, Scenario.full] := by
  have hinv0 : stInv st st := ⟨rfl, rfl, Or.inl rfl⟩
  have h1 := runScenarios_canon st tmpdir hfresh hdisj order st ⟨none, none, none⟩ hinv0
  have h2 := runScenarios_canon st tmpdir hfresh hdisj
    [Scenario.host, Scenario.container, Scenario.full] st ⟨none, none, none⟩ hinv0
  rw [runScenarios, h1, runScenarios, h2]
  obtain ⟨a, b, c, rfl⟩ := List.length_eq_three.mp hperm.length_eq
  cases a <;> cases b <;> cases c <;>
    first
      | rfl
      | exact absurd hperm (by decide)

/-- Witness for C9: a permuted order at the concrete sample state. -/
theorem scenarios_order_insensitive_witness :
    runScenarios sampleState ["tmp", "x"]
        [Scenario.container, Scenario.full, Scenario.host] =
      runScenarios sampleState ["tmp", "x"]
        [Scenario.host, Scenario.container, Scenario.full] :=
  scenarios_order_insensitive sampleState ["tmp", "x"] (by decide)
    (fun _ => rfl) [Scenario.container, Scenario.full, Scenario.host] (by decide)
